import Mathlib

/-!
Verification of the proxy-gateway server (session-pinned reverse proxy).

This file gives a shallow embedding, in Lean 4, of the parts of the
JavaScript source that the checked claims are about:

* `src/services/cookieService.js` — cookie absorption and serialization;
* `src/services/proxyService.js` — `fetchThroughProxy` status handling and
  `fetchWithRetry` rotation;
* `src/services/rewriteService.js` — `rewriteUrl` and the
  `/browse` / `/external` rewrite policy, together with faithful models of
  JavaScript's `encodeURIComponent` / `decodeURIComponent`;
* `src/routes/navigateRoutes.js` — the server-side redirect resolver;
* `src/routes/proxyRoutes.js` — MIME correction and error-page handling of
  the `/browse` and `/external` handlers;
* `src/routes/relayRoutes.js` — the relay endpoint's URL validation.

JavaScript strings are modelled as Lean `String`s; the handful of string
primitives the source uses (`includes`, `startsWith`, `toLowerCase`, …) are
defined below over `String.data` so that proofs can proceed by list
reasoning.  Buffers/array-buffers are modelled as the text they decode to.
-/

set_option maxHeartbeats 1000000
set_option maxRecDepth 100000

/-! ## String primitives (JS string methods) -/

/-- JS `s.startsWith(p)`. -/
def strStartsWith (s p : String) : Bool :=
  p.data.isPrefixOf s.data

/-- JS `s.endsWith(p)`. -/
def strEndsWith (s p : String) : Bool :=
  p.data.isSuffixOf s.data

/-- JS `s.includes(p)` (substring containment). -/
def strContains (s p : String) : Bool :=
  decide (p.data <:+: s.data)

/-- JS `s.toLowerCase()` (ASCII case folding; the source only compares
ASCII markers, so ASCII folding is faithful for every comparison made). -/
def strToLower (s : String) : String :=
  String.mk (s.data.map Char.toLower)

/-- JS `s.slice(0, n)` on the decoded text. -/
def strTake (s : String) (n : Nat) : String :=
  String.mk (s.data.take n)

/-- JS `s.split(sep)[0]`: the part of `s` before the first occurrence of
the separator character. -/
def strBefore (s : String) (sep : Char) : String :=
  String.mk (s.data.takeWhile (fun c => !(c == sep)))

/-- JS whitespace as far as `String.prototype.trim` and the cookie values
in scope are concerned. -/
def isJsWhitespace (c : Char) : Bool :=
  c == ' ' || c == '\t' || c == '\n' || c == '\r'

/-- JS `s.trim()`. -/
def strTrim (s : String) : String :=
  String.mk (((s.data.dropWhile isJsWhitespace).reverse.dropWhile isJsWhitespace).reverse)

/-- JS `s.split(sep)` for a one-character separator (the only form the
source uses). -/
def splitOnChar (sep : Char) : List Char → List (List Char)
  | [] => [[]]
  | c :: rest =>
    let r := splitOnChar sep rest
    if c == sep then [] :: r
    else
      match r with
      | [] => [[c]]
      | h :: t => (c :: h) :: t

/-- JS `s.split(sep)` lifted to strings. -/
def strSplitOnChar (s : String) (sep : Char) : List String :=
  (splitOnChar sep s.data).map String.mk

/-- Splitting point of the first occurrence of `pat`: the characters
before it and the characters after it. -/
def findFirstSplit (pat : List Char) : List Char → Option (List Char × List Char)
  | [] => if pat.isEmpty then some ([], []) else none
  | c :: rest =>
    if pat.isPrefixOf (c :: rest) then some ([], (c :: rest).drop pat.length)
    else
      match findFirstSplit pat rest with
      | some (before, after) => some (c :: before, after)
      | none => none

/-- JS `s.replace(pat, '')` for a plain-string pattern: remove the first
occurrence of `pat` from `s`. -/
def strReplaceFirst (s pat : String) : String :=
  match findFirstSplit pat.data s.data with
  | some (before, after) => String.mk (before ++ after)
  | none => s

/-- JS `a || b` for an optional string: `undefined` and `''` are falsy. -/
def jsOrOpt (a b : Option String) : Option String :=
  match a with
  | some s => if s = "" then b else some s
  | none => b

/-- JS `a || b` where `b` is a plain string default. -/
def jsOrStr (a : Option String) (b : String) : String :=
  match a with
  | some s => if s = "" then b else s
  | none => b

/-- Lookup in an insertion-ordered association list (a JS object with
string keys, or a lower-cased header map). -/
def assocLookup (m : List (String × String)) (k : String) : Option String :=
  match m with
  | [] => none
  | (k', v) :: rest => if k' = k then some v else assocLookup rest k

/-- JS `obj[k] = v` on a plain object: an existing key keeps its position
and gets the new value; a fresh key is appended (JS objects enumerate
non-integer string keys in insertion order). -/
def assocSet (m : List (String × String)) (k v : String) : List (String × String) :=
  match m with
  | [] => [(k, v)]
  | (k', v') :: rest => if k' = k then (k', v) :: rest else (k', v') :: assocSet rest k v

/-! ## CookieService (`src/services/cookieService.js`) -/

/-- `parseCookie(cookieStr)`: split off attributes at `';'`, split the
first part at `'='`, join any further `'='` parts back into the value,
and trim.  Returns `none` when the name part is empty (JS falsy check). -/
def parseCookie (cookieStr : String) : Option (String × String) :=
  match strSplitOnChar cookieStr ';' with
  | [] => none
  | nameValue :: _ =>
    if nameValue = "" then none
    else
      match strSplitOnChar nameValue '=' with
      | [] => none
      | name :: valueParts =>
        let value := String.intercalate "=" valueParts
        if name = "" then none
        else some (strTrim name, if value = "" then "" else strTrim value)

/-- `storeCookiesFromResponse`: fold every `Set-Cookie` entry into the
session's `targetCookies` object (last write wins per name; entry order
of the object is first-insertion order, as in JS). -/
def storeCookiesFromResponse (setCookieHeaders : List String)
    (targetCookies : List (String × String)) : List (String × String) :=
  setCookieHeaders.foldl
    (fun m c =>
      match parseCookie c with
      | some (n, v) => assocSet m n v
      | none => m)
    targetCookies

/-- `buildCookieHeader`: serialize the cookie object, in enumeration
order, as `name=value` pairs joined by `'; '`. -/
def buildCookieHeader (targetCookies : List (String × String)) : String :=
  if targetCookies.isEmpty then ""
  else String.intercalate "; " (targetCookies.map (fun p => p.1 ++ "=" ++ p.2))

/-- Decidable equality for `Except`, so that concrete runs of the
fallible operations can be checked by evaluation. -/
instance {ε α : Type} [DecidableEq ε] [DecidableEq α] : DecidableEq (Except ε α) := fun a b =>
  match a, b with
  | .error e1, .error e2 =>
    if h : e1 = e2 then isTrue (by rw [h]) else isFalse (by intro hc; cases hc; exact h rfl)
  | .ok a1, .ok a2 =>
    if h : a1 = a2 then isTrue (by rw [h]) else isFalse (by intro hc; cases hc; exact h rfl)
  | .error _, .ok _ => isFalse (by intro hc; cases hc)
  | .ok _, .error _ => isFalse (by intro hc; cases hc)

/-! ## ProxyService (`src/services/proxyService.js`) -/

/-- Outcome of the single axios request issued by `fetchThroughProxy`:
either the network layer fails (connect/timeout/TLS error), or the
upstream answers with a status, (lower-cased) header map and body. -/
inductive UpstreamOutcome where
  | netError (message : String)
  | response (status : Nat) (headers : List (String × String)) (data : String)
deriving DecidableEq

/-- The object `fetchThroughProxy` resolves with on success. -/
structure FetchResult where
  success : Bool
  status : Nat
  headers : List (String × String)
  data : String
  contentType : String
deriving DecidableEq

/-- The axios `validateStatus` predicate configured by `fetchThroughProxy`:
`(status) => status < 500`.  axios resolves the request exactly when this
returns `true` and rejects (throws) otherwise. -/
def validateStatus (status : Nat) : Bool :=
  status < 500

/-- `fetchThroughProxy`, reduced to its result handling: a network failure
is re-thrown; a response whose status passes `validateStatus` is wrapped
in a `FetchResult` (with `contentType` defaulted to `'text/html'`); a
response rejected by `validateStatus` (status ≥ 500) makes axios throw,
which the function's `catch` block logs and re-throws. -/
def fetchThroughProxy (outcome : UpstreamOutcome) : Except String FetchResult :=
  match outcome with
  | .netError m => .error m
  | .response st hdrs dat =>
    if validateStatus st then
      .ok { success := true, status := st, headers := hdrs, data := dat
            contentType := jsOrStr (assocLookup hdrs "content-type") "text/html" }
    else
      .error ("Request failed with status code " ++ toString st)

/-- The slice of the Express session record that `fetchWithRetry`
mutates: the sticky proxy credential id. -/
structure Session where
  proxySessionId : String
deriving DecidableEq

/-- The retry loop of `fetchWithRetry`, recursing on the number of
attempts still available (`fuel`; the JS loop runs `attempt` from 1 to
`maxRetries`).  `upstream` gives the axios outcome of each numbered
attempt and `newIds` the value `generateProxySessionId()` returns at each
rotation.  On failure the cached tunnel is closed (an I/O effect with no
bearing on the returned data) and, when attempts remain, the session's
credential id is overwritten in place before retrying. -/
def fetchWithRetryGo (upstream : Nat → UpstreamOutcome) (newIds : Nat → String)
    (maxRetries : Nat) : Session → Nat → Nat → Except String (FetchResult × Session)
  | _, _, 0 => .error ("All " ++ toString maxRetries ++ " proxy attempts failed")
  | session, attempt, fuel + 1 =>
    match fetchThroughProxy (upstream attempt) with
    | .ok r => .ok (r, session)
    | .error e =>
      if fuel = 0 then
        .error ("All " ++ toString maxRetries ++ " proxy attempts failed: " ++ e)
      else
        fetchWithRetryGo upstream newIds maxRetries
          { proxySessionId := newIds attempt } (attempt + 1) fuel

/-- `fetchWithRetry(url, session, options, maxRetries)`: run the loop
starting at attempt 1.  On success the (possibly rotated) session record
is returned alongside the result, mirroring the in-place mutation of the
caller's session object. -/
def fetchWithRetry (upstream : Nat → UpstreamOutcome) (newIds : Nat → String)
    (session : Session) (maxRetries : Nat) : Except String (FetchResult × Session) :=
  fetchWithRetryGo upstream newIds maxRetries session 1 maxRetries

/-! ## `encodeURIComponent` / `decodeURIComponent`

Faithful models of the two ECMAScript built-ins used by the rewrite
service (`'/external/' + encodeURIComponent(absoluteUrl)`) and by the
`/external` route handler (`decodeURIComponent(req.params.encodedUrl)`).
`encodeURIComponent` leaves the unreserved set
`A-Z a-z 0-9 - _ . ! ~ * ' ( )` intact and percent-encodes the UTF-8
bytes of every other character with upper-case hex digits.
`decodeURIComponent` reverses this and throws a `URIError` (modelled as
`none`) on malformed escapes or invalid UTF-8 byte sequences. -/

/-- The characters `encodeURIComponent` does not escape. -/
def isUnreservedChar (c : Char) : Bool :=
  (65 ≤ c.toNat && c.toNat ≤ 90) || (97 ≤ c.toNat && c.toNat ≤ 122) ||
  (48 ≤ c.toNat && c.toNat ≤ 57) ||
  c == '-' || c == '_' || c == '.' || c == '!' || c == '~' ||
  c == '*' || c == Char.ofNat 39 || c == '(' || c == ')'

/-- Upper-case hex digit for a value below 16. -/
def hexDigitChar (n : Nat) : Char :=
  if n < 10 then Char.ofNat (48 + n) else Char.ofNat (55 + n)

/-- Value of a hex digit (both cases), as `decodeURIComponent` accepts. -/
def hexDigitVal (c : Char) : Option Nat :=
  if 48 ≤ c.toNat && c.toNat ≤ 57 then some (c.toNat - 48)
  else if 65 ≤ c.toNat && c.toNat ≤ 70 then some (c.toNat - 55)
  else if 97 ≤ c.toNat && c.toNat ≤ 102 then some (c.toNat - 87)
  else none

/-- UTF-8 bytes of a code point (as natural numbers below 256). -/
def utf8Bytes (n : Nat) : List Nat :=
  if n < 128 then [n]
  else if n < 2048 then [192 + n / 64, 128 + n % 64]
  else if n < 65536 then [224 + n / 4096, 128 + (n / 64) % 64, 128 + n % 64]
  else [240 + n / 262144, 128 + (n / 4096) % 64, 128 + (n / 64) % 64, 128 + n % 64]

/-- `%HH` escape of one byte. -/
def encodeByte (b : Nat) : List Char :=
  [Char.ofNat 37, hexDigitChar (b / 16), hexDigitChar (b % 16)]

/-- Encoding of one character: kept if unreserved, else the `%HH` escapes
of its UTF-8 bytes. -/
def encodeCharURI (c : Char) : List Char :=
  if isUnreservedChar c then [c]
  else ((utf8Bytes c.toNat).map encodeByte).flatten

/-- `encodeURIComponent(s)`. -/
def encodeURIComponent (s : String) : String :=
  String.mk ((s.data.map encodeCharURI).flatten)


/-- Token stream produced by percent-unescaping: literal characters and
escaped bytes.  JS decodes the `%HH` escapes first and then runs UTF-8
decoding over the resulting bytes; a multi-byte sequence must consist
entirely of escaped bytes. -/
inductive UriTok where
  | raw (c : Char)
  | byte (b : Nat)
deriving DecidableEq

/-- First stage of `decodeURIComponent`: replace every `%HH` by the byte
it denotes; a `%` not followed by two hex digits is a `URIError`. -/
def percentTokens : List Char → Option (List UriTok)
  | [] => some []
  | c :: rest =>
    if c = Char.ofNat 37 then
      match rest with
      | c1 :: c2 :: rest1 =>
        match hexDigitVal c1, hexDigitVal c2 with
        | some hi, some lo => (percentTokens rest1).map (fun ts => .byte (16 * hi + lo) :: ts)
        | _, _ => none
      | _ => none
    else
      (percentTokens rest).map (fun ts => .raw c :: ts)

/-- Completion checks of the UTF-8 decoding of `decodeURIComponent`:
a 2-byte sequence must not be overlong, a 3-byte sequence must not be
overlong or a surrogate, a 4-byte sequence must land in
`[U+10000, U+10FFFF]`. -/
def utf8FinishOk (len n : Nat) : Bool :=
  if len = 2 then 128 ≤ n
  else if len = 3 then 2048 ≤ n && (n < 55296 || 57343 < n)
  else 65536 ≤ n && n < 1114112

/-- Second stage of `decodeURIComponent`: UTF-8-decode the escaped bytes,
one token at a time.  `pending = some (acc, need, len)` means a `len`-byte
sequence is in progress with `acc` the bits accumulated so far and `need`
continuation bytes still expected; continuation bytes must themselves be
escapes (a literal character aborts with `URIError`, i.e. `none`), and
overlong/surrogate/out-of-range sequences are rejected on completion. -/
def utf8Run : Option (Nat × Nat × Nat) → List UriTok → Option (List Char)
  | some _, [] => none
  | none, [] => some []
  | pending, t :: rest =>
    match pending, t with
    | none, .raw c => (utf8Run none rest).map (fun l => c :: l)
    | some _, .raw _ => none
    | none, .byte b =>
      if b < 128 then (utf8Run none rest).map (fun l => Char.ofNat b :: l)
      else if b < 192 then none
      else if b < 224 then utf8Run (some (b - 192, 1, 2)) rest
      else if b < 240 then utf8Run (some (b - 224, 2, 3)) rest
      else if b < 248 then utf8Run (some (b - 240, 3, 4)) rest
      else none
    | some (acc, need, len), .byte b =>
      if 128 ≤ b && b < 192 then
        let acc2 := acc * 64 + (b - 128)
        if need = 1 then
          if utf8FinishOk len acc2 then (utf8Run none rest).map (fun l => Char.ofNat acc2 :: l)
          else none
        else utf8Run (some (acc2, need - 1, len)) rest
      else none

/-- The token stream that the escapes of one character decode back
into; relates the two stages of `decodeURIComponent` to
`encodeURIComponent` in the round-trip proof below. -/
def uriToksOfChar (c : Char) : List UriTok :=
  if isUnreservedChar c then [UriTok.raw c] else (utf8Bytes c.toNat).map UriTok.byte

/-- `decodeURIComponent(s)`; `none` models a thrown `URIError`. -/
def decodeURIComponent (s : String) : Option String :=
  ((percentTokens s.data).bind (utf8Run none)).map String.mk

/-! ## `new URL(...)` projections

The handlers only construct WHATWG `URL` objects from `http:`/`https:`
URLs (the rewrite service resolves every reference to such a URL before
parsing, and the SSRF checks run on parsed `http(s)` targets), so the
model parses exactly those, returning `none` where the constructor would
throw `TypeError` (no scheme, or an empty host).  Hostnames are
lower-cased by the constructor, as in the WHATWG spec. -/

/-- Characters that end the authority component. -/
def isAuthorityEnd (c : Char) : Bool :=
  c == '/' || c == '?' || c == '#'

/-- The `scheme://`-stripped remainder of an `http:`/`https:` URL. -/
def schemeRest (s : String) : Option (List Char) :=
  if strStartsWith s "http://" then some (s.data.drop 7)
  else if strStartsWith s "https://" then some (s.data.drop 8)
  else none

/-- The authority part: everything up to the first `/`, `?` or `#`. -/
def authorityOf (rest : List Char) : List Char :=
  rest.takeWhile (fun c => !isAuthorityEnd c)

/-- Strip `user:pass@` credentials: keep what follows the last `@`. -/
def afterCredentials (auth : List Char) : List Char :=
  ((auth.reverse.takeWhile (fun c => !(c == '@'))).reverse)

/-- `new URL(s).hostname`: authority minus credentials and port,
lower-cased; `none` when the URL does not parse (which the handlers'
`try`/`catch` blocks turn into a 400-style rejection). -/
def urlHostname (s : String) : Option String :=
  match schemeRest s with
  | none => none
  | some rest =>
    let host := (afterCredentials (authorityOf rest)).takeWhile (fun c => !(c == ':'))
    if host.isEmpty then none else some (String.mk (host.map Char.toLower))

/-- The part of the URL after the authority (path + query + fragment). -/
def afterAuthority (rest : List Char) : List Char :=
  rest.dropWhile (fun c => !isAuthorityEnd c)

/-- `new URL(s).pathname`; an absent path serializes as `/`. -/
def urlPathname (s : String) : String :=
  match schemeRest s with
  | none => ""
  | some rest =>
    let p := (afterAuthority rest).takeWhile (fun c => !(c == '?') && !(c == '#'))
    if p.isEmpty then "/" else String.mk p

/-- `new URL(s).search` (`?`-prefixed query, empty when the query is). -/
def urlSearch (s : String) : String :=
  match schemeRest s with
  | none => ""
  | some rest =>
    let afterPath := (afterAuthority rest).dropWhile (fun c => !(c == '?') && !(c == '#'))
    if afterPath.head? = some '?' then
      let q := afterPath.takeWhile (fun c => !(c == '#'))
      if q = ['?'] then "" else String.mk q
    else ""

/-- `new URL(s).hash` (`#`-prefixed fragment, empty when the fragment is). -/
def urlHash (s : String) : String :=
  match schemeRest s with
  | none => ""
  | some rest =>
    let h := (afterAuthority rest).dropWhile (fun c => !(c == '#'))
    if h = [] || h = ['#'] then "" else String.mk h

/-! ## RewriteService (`src/services/rewriteService.js`) -/

/-- `rewriteUrl(url, targetDomain)`: `none` models the JS `null` return
("do not touch this reference").  Skips data/javascript/mailto/tel/
fragment references and already-rewritten paths, resolves the reference
to an absolute URL against the target origin, and maps same-host URLs to
`/browse<path><search><hash>` and foreign-host URLs to
`/external/<encodeURIComponent(url)>`.  A URL the `URL` constructor
rejects is left untouched (`catch` → `null`).
The `absoluteUrl` resolution block is split out as `resolveReference`:
protocol-relative URLs get `https:`, origin-relative paths and
bare-relative references are resolved against the target origin, and
absolute URLs pass through. -/
def resolveReference (url targetDomain : String) : String :=
  if strStartsWith url "//" then "https:" ++ url
  else if strStartsWith url "/" then targetDomain ++ url
  else if strStartsWith url "http://" || strStartsWith url "https://" then url
  else targetDomain ++ "/" ++ url

def rewriteUrl (url targetDomain : String) : Option String :=
  if url = "" then none
  else if strStartsWith url "data:" || strStartsWith url "javascript:" ||
          strStartsWith url "mailto:" || strStartsWith url "tel:" ||
          strStartsWith url "#" then none
  else if strStartsWith url "/browse" || strStartsWith url "/external" then none
  else
    match urlHostname (resolveReference url targetDomain) with
    | none => none
    | some h =>
      match urlHostname targetDomain with
      | none => none
      | some th =>
        if h = th then
          some ("/browse" ++ urlPathname (resolveReference url targetDomain)
            ++ urlSearch (resolveReference url targetDomain)
            ++ urlHash (resolveReference url targetDomain))
        else
          some ("/external/" ++ encodeURIComponent (resolveReference url targetDomain))

/-- The effect of `rewriteUrl` on a document attribute: callers replace
the attribute only when `rewriteUrl` returns a value, otherwise the
original reference is kept. -/
def rewriteStep (targetDomain url : String) : String :=
  (rewriteUrl url targetDomain).getD url

/-! ## Redirect resolver (`src/routes/navigateRoutes.js`)

`extractRedirectDestination` inspects the HTML through cheerio selectors
and regular-expression matches.  The parsing layer is pushed into the
input representation: an `HtmlPage` carries the raw markup together with
the projections cheerio/the regexes would compute from it (anchor list in
document order, regex captures, the position information the JS
`onclick` guard uses).  The decision logic below is then a direct
translation of the source. -/

/-- An `a[href]` element: its `href` attribute and its text content. -/
structure Anchor where
  href : String
  text : String
deriving DecidableEq

/-- An HTML response body, as the resolver inspects it. -/
structure HtmlPage where
  /-- The raw markup (used for the substring checks). -/
  raw : String
  /-- `$('a[href]')` in document order. -/
  anchors : List Anchor
  /-- Capture of `content=["]?\d+;\s*url=(...)`, the loose meta-refresh
  regex of `extractRedirectDestination` (method 2). -/
  metaRefreshContentUrl : Option String
  /-- Capture of the stricter `<meta ... http-equiv=refresh ... content=`
  regex used by the follow loop. -/
  metaRefreshTagUrl : Option String
  /-- Capture of `location(.href)? = "..."` (JS-redirect regex). -/
  jsRedirectUrl : Option String
  /-- The loop's immediacy guard: `!html.includes('onclick') ||
  indexOf(match) < indexOf('onclick')`. -/
  jsRedirectImmediate : Bool
  /-- Matches of the method-5 external-URL pattern scan, in order. -/
  scanUrls : List String
deriving DecidableEq

/-- An empty/binary body. -/
def emptyPage : HtmlPage :=
  { raw := "", anchors := [], metaRefreshContentUrl := none, metaRefreshTagUrl := none
    jsRedirectUrl := none, jsRedirectImmediate := false, scanUrls := [] }

/-- The response record the resolver consumes from `fetchWithRetry`
(status, `Location` header, content type, body). -/
structure NavResponse where
  status : Nat
  location : Option String
  contentType : String
  body : HtmlPage
deriving DecidableEq

/-- `isGoogleRedirectNotice(html)`: heuristic match on the lower-cased
markup. -/
def isGoogleRedirectNotice (html : String) : Bool :=
  let l := strToLower html
  strContains l "redirect notice" ||
  strContains l "the previous page is sending you to" ||
  strContains l "return to the previous page" ||
  (strContains l "google" && strContains l "redirect")

/-- The JS `.replace(/[quotes]/g, '')` applied to regex captures. -/
def stripQuotes (s : String) : String :=
  String.mk (s.data.filter (fun c => !(c == '"') && !(c == Char.ofNat 39)))

/-- Method 1 of `extractRedirectDestination`: the first anchor whose href
is a non-Google absolute URL. -/
def anchorQualifies (a : Anchor) : Bool :=
  a.href ≠ "" && strStartsWith a.href "http" &&
  !strContains a.href "google.com" &&
  !strContains a.href "doubleclick.net" &&
  !strContains a.href "googlesyndication.com"

/-- Method 4: anchors whose text reads like a continue/proceed link. -/
def isContinueAnchor (a : Anchor) : Bool :=
  let t := strToLower a.text
  strContains t "continue" || strContains t "proceed" || strContains t "click here"

/-- Method 5 filter applied to each pattern-scan match. -/
def scanUrlQualifies (u : String) : Bool :=
  !strContains u "google" && !strContains u "doubleclick" && !strContains u "gstatic"

/-- `extractRedirectDestination(html)`: the five extraction methods,
first success wins. -/
def extractRedirectDestination (page : HtmlPage) : Option String :=
  match page.anchors.find? anchorQualifies with
  | some a => some a.href
  | none =>
    let method2 :=
      match page.metaRefreshContentUrl with
      | some u =>
        let u2 := stripQuotes u
        if strStartsWith u2 "http" then some u2 else none
      | none => none
    match method2 with
    | some u => some u
    | none =>
      let method3 :=
        match page.jsRedirectUrl with
        | some u => if strStartsWith u "http" then some u else none
        | none => none
      match method3 with
      | some u => some u
      | none =>
        let method4 :=
          match (page.anchors.filter isContinueAnchor).head? with
          | some a => if a.href ≠ "" && strStartsWith a.href "http" then some a.href else none
          | none => none
        match method4 with
        | some u => some u
        | none => page.scanUrls.find? scanUrlQualifies

/-- What one iteration of the follow loop does with a response: hop to a
new URL (either resolved against the current URL, for HTTP redirects and
notice extraction, or taken verbatim, for meta-refresh/JS redirects), or
stop. -/
inductive HopTarget where
  | resolved (dest : String)
  | direct (url : String)
deriving DecidableEq

/-- The loop's JS-redirect check: an absolute `location=` assignment not
preceded by an `onclick` handler. -/
def jsRedirectCheck (r : NavResponse) : Option HopTarget :=
  match r.body.jsRedirectUrl with
  | some u =>
    if strStartsWith u "http" && r.body.jsRedirectImmediate then some (.direct u) else none
  | none => none

/-- One iteration of `followRedirectsServerSide`'s classification: HTTP
3xx with a `Location` header; otherwise, for a 200 `text/html` body:
redirect-notice extraction, then the meta-refresh tag, then an immediate
JS redirect; otherwise terminal. -/
def hopTarget (r : NavResponse) : Option HopTarget :=
  if 300 ≤ r.status && r.status < 400 && (r.location.getD "") ≠ "" then
    some (.resolved (r.location.getD ""))
  else if strContains r.contentType "text/html" && r.status == 200 then
    let fromNotice :=
      if isGoogleRedirectNotice r.body.raw then extractRedirectDestination r.body else none
    match fromNotice with
    | some d => some (.resolved d)
    | none =>
      match r.body.metaRefreshTagUrl with
      | some mu =>
        let mu2 := stripQuotes mu
        if mu2 ≠ "" && strStartsWith mu2 "http" then some (.direct mu2)
        else jsRedirectCheck r
      | none => jsRedirectCheck r
  else none

/-- `new URL(dest, currentUrl).href` as used on hop destinations.  Every
destination the claims exercise is an absolute URL, which resolves to
itself; the `catch` fallback of the source likewise keeps the raw
destination. -/
def resolveUrlAgainst (dest _currentUrl : String) : String :=
  dest

/-- Result of `followRedirectsServerSide`, instrumented with the number
of `fetchWithRetry` calls issued (`fetchCount` is bookkeeping for the
fetch-count claims; the source returns only `response` and `finalUrl`). -/
structure ResolveResult where
  response : NavResponse
  finalUrl : String
  fetchCount : Nat
deriving DecidableEq

/-- The automatic redirect following axios performs when a caller does
not pass `followRedirects: false`: `fetchThroughProxy` then configures
`maxRedirects: 20` (proxyService.js, `options.followRedirects === false
? 0 : 20`), so axios transparently follows each HTTP 3xx response
carrying a `Location` header and rejects with its redirect-cap error
once a redirect is met with no follows left.  `fuel` is the number of
redirects axios may still follow. -/
def axiosFollowRedirects (fetch : String → NavResponse) :
    Nat → String → Except String NavResponse
  | 0, u =>
    let r := fetch u
    if 300 ≤ r.status && r.status < 400 && (r.location.getD "") ≠ "" then
      .error "Maximum number of redirects exceeded"
    else .ok r
  | fuel + 1, u =>
    let r := fetch u
    if 300 ≤ r.status && r.status < 400 && (r.location.getD "") ≠ "" then
      axiosFollowRedirects fetch fuel (resolveUrlAgainst (r.location.getD "") u)
    else .ok r

/-- The hop-cap final fetch of `followRedirectsServerSide`
(navigateRoutes.js line 309): `fetchWithRetry(currentUrl, session,
{ method: 'GET', headers })`.  Unlike the in-loop fetches this call does
*not* pass `followRedirects: false`, so the underlying axios request
auto-follows redirects up to the configured cap of 20, and — as in
`fetchThroughProxy` — a post-follow status of 500 or more is rejected by
`validateStatus`.  Over a deterministic upstream map every retry attempt
repeats the same request with the same outcome, so a successful attempt
is returned as-is while a failing one fails all three attempts and
surfaces `fetchWithRetry`'s exhaustion error. -/
def finalFetchOf (fetch : String → NavResponse) (u : String) :
    Except String NavResponse :=
  match axiosFollowRedirects fetch 20 u with
  | .ok r =>
    if validateStatus r.status then .ok r
    else .error ("All 3 proxy attempts failed: Request failed with status code "
      ++ toString r.status)
  | .error e => .error ("All 3 proxy attempts failed: " ++ e)

/-- The `while (redirectCount < maxRedirects)` loop; `fuel` is the number
of loop iterations still allowed.  Every in-loop fetch passes
`followRedirects: false` and is abstracted as the map `fetch`.  When the
cap is exhausted the source issues one further `fetchWithRetry` of the
last known URL *without* `followRedirects: false`; that fetch
auto-follows redirects and can throw, so it is modelled by the fallible
`finalFetch` (instantiated with `finalFetchOf fetch` by the concrete
claims), and its failure propagates out of the resolver. -/
def followRedirectsGo (fetch : String → NavResponse)
    (finalFetch : String → Except String NavResponse) :
    String → Nat → Nat → Except String ResolveResult
  | currentUrl, fetched, 0 =>
    match finalFetch currentUrl with
    | .ok r => .ok { response := r, finalUrl := currentUrl, fetchCount := fetched + 1 }
    | .error e => .error e
  | currentUrl, fetched, fuel + 1 =>
    let r := fetch currentUrl
    match hopTarget r with
    | some (.resolved d) =>
      followRedirectsGo fetch finalFetch (resolveUrlAgainst d currentUrl) (fetched + 1) fuel
    | some (.direct u) =>
      followRedirectsGo fetch finalFetch u (fetched + 1) fuel
    | none =>
      .ok { response := r, finalUrl := currentUrl, fetchCount := fetched + 1 }

/-- `followRedirectsServerSide(startUrl, session, headers, maxRedirects)`
with each in-loop upstream fetch abstracted as the map `fetch` from URL
to response and the hop-cap final fetch as the fallible `finalFetch`
(the per-claim environments below instantiate both). -/
def followRedirectsServerSide (fetch : String → NavResponse)
    (finalFetch : String → Except String NavResponse) (startUrl : String)
    (maxRedirects : Nat) : Except String ResolveResult :=
  followRedirectsGo fetch finalFetch startUrl 0 maxRedirects

/-! ## Proxy routes (`src/routes/proxyRoutes.js`) -/

/-- The extension → MIME table of `proxyRoutes.js`. -/
def MIME_TYPES : List (String × String) :=
  [(".css", "text/css; charset=utf-8"),
   (".js", "application/javascript; charset=utf-8"),
   (".mjs", "application/javascript; charset=utf-8"),
   (".json", "application/json; charset=utf-8"),
   (".woff", "font/woff"),
   (".woff2", "font/woff2"),
   (".ttf", "font/ttf"),
   (".otf", "font/otf"),
   (".eot", "application/vnd.ms-fontobject"),
   (".svg", "image/svg+xml"),
   (".png", "image/png"),
   (".jpg", "image/jpeg"),
   (".jpeg", "image/jpeg"),
   (".gif", "image/gif"),
   (".webp", "image/webp"),
   (".ico", "image/x-icon"),
   (".mp4", "video/mp4"),
   (".webm", "video/webm"),
   (".mp3", "audio/mpeg"),
   (".wav", "audio/wav"),
   (".pdf", "application/pdf"),
   (".xml", "application/xml"),
   (".txt", "text/plain"),
   (".html", "text/html; charset=utf-8"),
   (".htm", "text/html; charset=utf-8")]

/-- Node's `path.extname`, lower-cased as the handler does: the suffix of
the last path segment from its last dot, empty when the segment has no
dot or only a leading (hidden-file) dot. -/
def extnameLower (p : String) : String :=
  let base := (p.data.reverse.takeWhile (fun c => !(c == '/'))).reverse
  match base with
  | [] => ""
  | _ :: tailChars =>
    let revTail := tailChars.reverse
    if revTail.contains '.' then
      strToLower (String.mk ('.' :: (revTail.takeWhile (fun c => !(c == '.'))).reverse))
    else ""

/-- `getCorrectMimeType(urlPath, responseContentType, acceptHeader)`:
extension wins; else the `Accept` header; else URL-shape heuristics for
extension-less CSS/JS; else the upstream's declared type. -/
def getCorrectMimeType (urlPath responseContentType acceptHeader : String) : String :=
  let cleanPath := strBefore urlPath '?'
  let ext := extnameLower cleanPath
  match (if ext ≠ "" then assocLookup MIME_TYPES ext else none) with
  | some m => m
  | none =>
    let viaAccept : Option String :=
      if acceptHeader ≠ "" then
        if strContains acceptHeader "text/css" then some "text/css; charset=utf-8"
        else if strContains acceptHeader "application/javascript" ||
                strContains acceptHeader "text/javascript" then
          some "application/javascript; charset=utf-8"
        else if strContains acceptHeader "font/" || strContains acceptHeader "application/font" then
          some (if strContains acceptHeader "woff2" then "font/woff2"
                else if strContains acceptHeader "woff" then "font/woff"
                else if strContains acceptHeader "ttf" then "font/ttf"
                else "font/woff2")
        else none
      else none
    match viaAccept with
    | some m => m
    | none =>
      let lowerPath := strToLower cleanPath
      if (strContains lowerPath "css" || strContains lowerPath "style" ||
          strContains lowerPath "stylesheet") &&
         (responseContentType = "" || strContains responseContentType "text/html") then
        "text/css; charset=utf-8"
      else if (strContains lowerPath ".js" || strContains lowerPath "script" ||
               strContains lowerPath "/js/") &&
              (responseContentType = "" || strContains responseContentType "text/html") then
        "application/javascript; charset=utf-8"
      else if responseContentType ≠ "" then responseContentType
      else "application/octet-stream"

/-- `isHtmlErrorPage(data, contentType)`: an HTML-typed body whose first
500 characters contain an error-page marker. -/
def isHtmlErrorPage (data contentType : String) : Bool :=
  if !strContains contentType "text/html" then false
  else
    let content := strToLower (strTake data 500)
    strContains content "<!doctype" || strContains content "<html" ||
    strContains content "404" || strContains content "not found" ||
    strContains content "error"

/-- What the `GET /browse*` handler sends once the upstream response is
in hand (lines 271–320 of the handler): each constructor records one
`res.type(...).send(...)` site.  `emptyTyped mime` is the error-page
branch (`res.type(correctMimeType).send('')`); `cssUnavailable` and
`jsUnavailable` send the `/* Resource unavailable */` placeholder body;
`cssRewritten`/`htmlRewritten` carry the body handed to
`rewriteCss`/`rewriteHtml`. -/
inductive BrowseSend where
  | emptyTyped (mime : String)
  | cssUnavailable
  | cssRewritten (source : String)
  | jsUnavailable
  | jsRaw (source : String)
  | htmlRewritten (source : String)
  | passthrough (mime : String) (source : String)
deriving DecidableEq

/-- The response-classification pipeline of `GET /browse*`, given the
target path (with query), the request's `Accept` header and the upstream
`FetchResult`. -/
def browseGetSend (targetPath acceptHeader : String) (resp : FetchResult) : BrowseSend :=
  let correctMimeType := getCorrectMimeType targetPath resp.contentType acceptHeader
  let responseContentType := resp.contentType
  let cleanPath := strToLower (strBefore targetPath '?')
  let hasNonHtmlExt :=
    [".css", ".js", ".mjs", ".json", ".woff", ".woff2"].any (fun ext => strEndsWith cleanPath ext)
  let urlLooksLikeCssJs :=
    strContains cleanPath "css" || strContains cleanPath "/js/" || strContains cleanPath "style"
  let acceptExpectsNonHtml :=
    strContains acceptHeader "text/css" || strContains acceptHeader "javascript"
  let expectedNonHtml := hasNonHtmlExt || urlLooksLikeCssJs || acceptExpectsNonHtml
  if expectedNonHtml && isHtmlErrorPage resp.data responseContentType then
    .emptyTyped correctMimeType
  else if strContains correctMimeType "text/css" then
    if strContains responseContentType "text/html" && strContains resp.data "<html" then
      .cssUnavailable
    else .cssRewritten resp.data
  else if strContains correctMimeType "javascript" then
    if strContains responseContentType "text/html" && strContains resp.data "<html" then
      .jsUnavailable
    else .jsRaw resp.data
  else if strContains correctMimeType "text/html" then .htmlRewritten resp.data
  else .passthrough correctMimeType resp.data

/-! ## Entry-point URL validation (SSRF guard)

Each entry point's processing of the target URL, up to the point where it
either rejects the request or hands the URL to
`proxyService.fetchWithRetry`.  `EntryDecision.fetch u` records that an
upstream fetch of `u` is attempted. -/

/-- Outcome of an entry point's pre-fetch validation. -/
inductive EntryDecision where
  | reject (status : Nat) (message : String)
  | fetch (url : String)
deriving DecidableEq

/-- The shared private/loopback hostname test (the same five conditions
appear in `GET /navigate` and `POST /relay`). -/
def isBlockedHostname (hostname : String) : Bool :=
  hostname == "localhost" || hostname == "127.0.0.1" ||
  strStartsWith hostname "192.168." || strStartsWith hostname "10." ||
  strStartsWith hostname "172."

/-- `GET /navigate?url=...` (navigateRoutes.js, lines 318–361): missing
URL → 400; percent-decode once when a `%` is present (decode failure
keeps the raw value); unparsable URL → 400; blocked hostname → 403;
otherwise the handler proceeds to fetch the decoded URL. -/
def navigateGetDecision (queryUrl : Option String) : EntryDecision :=
  match queryUrl with
  | none => .reject 400 "No URL provided"
  | some targetUrl =>
    if targetUrl = "" then .reject 400 "No URL provided"
    else
      let decodedUrl :=
        if strContains targetUrl "%" then (decodeURIComponent targetUrl).getD targetUrl
        else targetUrl
      match urlHostname decodedUrl with
      | none => .reject 400 "Invalid URL provided"
      | some hostname0 =>
        if isBlockedHostname (strToLower hostname0) then
          .reject 403 "Cannot navigate to internal addresses"
        else .fetch decodedUrl

/-- `POST /relay` (relayRoutes.js, lines 59–130): target from
`req.query.url || req.body.url`; missing → 400; unparsable → 400;
blocked hostname → 403; otherwise fetch. -/
def relayPostDecision (queryUrl bodyUrl : Option String) : EntryDecision :=
  match jsOrOpt queryUrl bodyUrl with
  | none => .reject 400 "URL parameter required"
  | some targetUrl =>
    if targetUrl = "" then .reject 400 "URL parameter required"
    else
      match urlHostname targetUrl with
      | none => .reject 400 "Invalid URL"
      | some hostname0 =>
        if isBlockedHostname (strToLower hostname0) then
          .reject 403 "Cannot relay to internal addresses"
        else .fetch targetUrl

/-- `GET /relay` (relayRoutes.js, lines 182–216): missing URL → 400,
unparsable → 400; *no* hostname check — the URL is fetched as given. -/
def relayGetDecision (queryUrl : Option String) : EntryDecision :=
  match queryUrl with
  | none => .reject 400 "URL parameter required"
  | some targetUrl =>
    if targetUrl = "" then .reject 400 "URL parameter required"
    else
      match urlHostname targetUrl with
      | none => .reject 400 "Invalid URL"
      | some _ => .fetch targetUrl

/-- `GET /external/:encodedUrl` (proxyRoutes.js, lines 944–959): the
parameter is percent-decoded and fetched immediately; the only rejection
is the `catch`-all (404 with an empty typed body) when decoding throws.
No hostname validation is performed. -/
def externalGetDecision (encodedUrl : String) : EntryDecision :=
  match decodeURIComponent encodedUrl with
  | some targetUrl => .fetch targetUrl
  | none => .reject 404 ""

/-- `GET /browse*` target construction (proxyRoutes.js, lines 228–240):
strip the `/browse` prefix (empty remainder becomes `/`), append the
preserved query string, and prepend the *configured* target base URL;
the request never chooses the host. -/
def browseGetDecision (targetBaseUrl reqPath : String) (queryString : Option String) :
    EntryDecision :=
  let stripped := strReplaceFirst reqPath "/browse"
  let targetPath0 := if stripped = "" then "/" else stripped
  let targetPath :=
    match queryString with
    | some q => targetPath0 ++ "?" ++ q
    | none => targetPath0
  .fetch (targetBaseUrl ++ targetPath)

/-! ## Concrete environments for the redirect-chain claims -/

/-- URLs of the four-stop chain: entry click URL, one HTTP hop, the
interstitial notice, and the destination. -/
def urlC4A : String := "http://ads.entry.example/click"

def urlC4B : String := "http://hop.example/r"

def urlC4C : String := "http://notice.example/interstitial"

def urlC4D : String := "http://destination.example/landing"

/-- The 200 interstitial: markup matching the redirect-notice heuristic,
with exactly one qualifying external anchor (pointing at the
destination) and nothing for the other extraction methods. -/
def noticePage : HtmlPage :=
  { raw := "<html><body>Redirect Notice. The previous page is sending you to the site below.</body></html>"
    anchors := [{ href := urlC4D, text := "go on" }]
    metaRefreshContentUrl := none, metaRefreshTagUrl := none
    jsRedirectUrl := none, jsRedirectImmediate := false, scanUrls := [] }

/-- The 200 destination page (not a redirect notice). -/
def finalPage : HtmlPage :=
  { raw := "<html><body>Welcome to the destination landing page.</body></html>"
    anchors := [], metaRefreshContentUrl := none, metaRefreshTagUrl := none
    jsRedirectUrl := none, jsRedirectImmediate := false, scanUrls := [] }

/-- Upstream environment for the 3-hop chain of the spec's example:
302 → 302 → 200 notice → 200 final page. -/
def envC4 (s : String) : NavResponse :=
  if s = urlC4A then { status := 302, location := some urlC4B, contentType := "", body := emptyPage }
  else if s = urlC4B then { status := 302, location := some urlC4C, contentType := "", body := emptyPage }
  else if s = urlC4C then
    { status := 200, location := none, contentType := "text/html; charset=utf-8", body := noticePage }
  else if s = urlC4D then
    { status := 200, location := none, contentType := "text/html; charset=utf-8", body := finalPage }
  else { status := 404, location := none, contentType := "", body := emptyPage }

/-- The `i`-th URL of an unbounded 302 chain. -/
def chainUrl (i : Nat) : String :=
  "http://chain.example/h" ++ String.mk (List.replicate i 'x')

/-- Upstream environment in which every URL answers 302 with a fresh
`Location` (every response of the chain is a 302). -/
def envC5 (s : String) : NavResponse :=
  { status := 302, location := some (s ++ "x"), contentType := "", body := emptyPage }

/-- Per-attempt upstream outcomes for the retry claim's witness: the
first two attempts fail at the network layer, the third succeeds. -/
def upstreamC3 : Nat → UpstreamOutcome
  | 3 => .response 200 [("content-type", "text/html")] "ok"
  | _ => .netError "ECONNRESET"

/-- Fresh credential ids generated at each rotation of the witness run. -/
def newIdsC3 (n : Nat) : String :=
  "ID" ++ toString n

/-! # Theorems

First the supporting lemmas (association-list/cookie-map facts and the
`decodeURIComponent`/`encodeURIComponent` round trip), then one theorem
per checked claim, each preceded by a doc comment naming the claim.
-/

/-! ### Basic cookie lemmas -/

theorem assocLookup_assocSet_self (m : List (String × String)) (k v : String) :
    assocLookup (assocSet m k v) k = some v := by
  induction m with
  | nil => simp [assocSet, assocLookup]
  | cons hd tl ih =>
    obtain ⟨k', v'⟩ := hd
    by_cases h : k' = k <;> simp [assocSet, assocLookup, h, ih]

theorem assocLookup_assocSet_ne (m : List (String × String)) (k k' v : String)
    (h : k ≠ k') : assocLookup (assocSet m k v) k' = assocLookup m k' := by
  induction m with
  | nil => simp [assocSet, assocLookup, h]
  | cons hd tl ih =>
    obtain ⟨k0, v0⟩ := hd
    by_cases h0 : k0 = k
    · subst h0
      simp [assocSet, assocLookup, h]
    · by_cases h1 : k0 = k' <;> simp [assocSet, assocLookup, h0, h1, ih, Ne.symm h]


/-! ### URI coding round trip -/

theorem hexRound : ∀ n, n < 16 → hexDigitVal (hexDigitChar n) = some n := by decide

theorem char_valid_nat (c : Char) :
    c.toNat < 55296 ∨ (57344 ≤ c.toNat ∧ c.toNat < 1114112) := by
  have h := c.valid
  simp only [UInt32.isValidChar, Nat.isValidChar] at h
  exact h

theorem percentTokens_encByte (b : Nat) (hb : b < 256) (tail : List Char) :
    percentTokens (encodeByte b ++ tail)
      = (percentTokens tail).map (fun ts => UriTok.byte b :: ts) := by
  have h1 : b / 16 < 16 := by omega
  have h2 : b % 16 < 16 := by omega
  have hb' : 16 * (b / 16) + b % 16 = b := by omega
  simp only [encodeByte, List.cons_append, percentTokens, if_pos rfl,
    hexRound _ h1, hexRound _ h2, hb', if_true, List.append_eq, List.nil_append]

theorem utf8Bytes_lt (n : Nat) (hn : n < 1114112) : ∀ b ∈ utf8Bytes n, b < 256 := by
  intro b hb
  simp only [utf8Bytes] at hb
  split at hb <;> [skip; split at hb] <;> [skip; skip; split at hb] <;>
    simp only [List.mem_cons, List.mem_singleton, List.not_mem_nil, or_false] at hb <;>
    rcases hb with h | h | h | h <;> omega

theorem unreserved_ne_percent (c : Char) (h : isUnreservedChar c = true) :
    ¬ (c = Char.ofNat 37) := by
  intro he
  subst he
  have : isUnreservedChar (Char.ofNat 37) = false := by decide
  rw [this] at h
  cases h

theorem percentTokens_encBytes (bs : List Nat) (hb : ∀ b ∈ bs, b < 256) (tail : List Char) :
    percentTokens ((bs.map encodeByte).flatten ++ tail)
      = (percentTokens tail).map (fun ts => bs.map UriTok.byte ++ ts) := by
  induction bs with
  | nil =>
    simp
  | cons b bs ih =>
    have hb0 : b < 256 := hb b (List.mem_cons_self b bs)
    have hbs : ∀ x ∈ bs, x < 256 := fun x hx => hb x (List.mem_cons_of_mem b hx)
    simp only [List.map_cons, List.flatten_cons, List.append_assoc]
    rw [percentTokens_encByte b hb0, ih hbs]
    cases percentTokens tail <;> simp

theorem percentTokens_encodeChar (c : Char) (tail : List Char) :
    percentTokens (encodeCharURI c ++ tail)
      = (percentTokens tail).map (fun ts => uriToksOfChar c ++ ts) := by
  by_cases h : isUnreservedChar c = true
  · have hne : ¬ (c = Char.ofNat 37) := unreserved_ne_percent c h
    simp only [encodeCharURI, uriToksOfChar, if_pos h, List.cons_append, List.nil_append]
    rw [percentTokens.eq_def]
    simp only [if_neg hne]
  · have hlt : c.toNat < 1114112 := by
      rcases char_valid_nat c with h1 | h1 <;> omega
    simp only [encodeCharURI, uriToksOfChar, if_neg h]
    exact percentTokens_encBytes _ (utf8Bytes_lt _ hlt) tail

theorem utf8Run_encodeChar (c : Char) (ts : List UriTok) :
    utf8Run none (uriToksOfChar c ++ ts) = (utf8Run none ts).map (fun l => c :: l) := by
  by_cases h : isUnreservedChar c = true
  · simp only [uriToksOfChar, if_pos h, List.cons_append, List.nil_append, utf8Run]
  · have hv := char_valid_nat c
    have hofn : Char.ofNat c.toNat = c := Char.ofNat_toNat c
    set n := c.toNat with hn
    simp only [uriToksOfChar, if_neg h]
    by_cases h1 : n < 128
    · simp only [utf8Bytes, if_pos h1, List.map_cons, List.map_nil, List.cons_append,
        List.nil_append, utf8Run, if_pos h1, hofn]
    · by_cases h2 : n < 2048
      · simp only [utf8Bytes, if_neg h1, if_pos h2, List.map_cons, List.map_nil,
          List.cons_append, List.nil_append, utf8Run]
        have c2 : ¬ (192 + n / 64 < 128) := by omega
        have c3 : ¬ (192 + n / 64 < 192) := by omega
        have c4 : 192 + n / 64 < 224 := by omega
        simp only [if_neg c2, if_neg c3, if_pos c4]
        have g1 : (decide (128 ≤ 128 + n % 64) && decide (128 + n % 64 < 192)) = true := by
          simp only [Bool.and_eq_true, decide_eq_true_eq]
          omega
        simp only [g1, if_true]
        have gacc : (192 + n / 64 - 192) * 64 + (128 + n % 64 - 128) = n := by omega
        simp only [gacc, utf8FinishOk, if_pos rfl]
        have g2 : decide (128 ≤ n) = true := by
          simp only [decide_eq_true_eq]
          omega
        simp only [g2, if_true, hofn]
      · by_cases h3 : n < 65536
        · simp only [utf8Bytes, if_neg h1, if_neg h2, if_pos h3, List.map_cons, List.map_nil,
            List.cons_append, List.nil_append, utf8Run]
          have c2 : ¬ (224 + n / 4096 < 128) := by omega
          have c3 : ¬ (224 + n / 4096 < 192) := by omega
          have c4 : ¬ (224 + n / 4096 < 224) := by omega
          have c5 : 224 + n / 4096 < 240 := by omega
          simp only [if_neg c2, if_neg c3, if_neg c4, if_pos c5]
          have g1 : (decide (128 ≤ 128 + n / 64 % 64) && decide (128 + n / 64 % 64 < 192)) = true := by
            simp only [Bool.and_eq_true, decide_eq_true_eq]
            omega
          have g2 : (decide (128 ≤ 128 + n % 64) && decide (128 + n % 64 < 192)) = true := by
            simp only [Bool.and_eq_true, decide_eq_true_eq]
            omega
          simp only [g1, g2, if_true]
          have gacc : ((224 + n / 4096 - 224) * 64 + (128 + n / 64 % 64 - 128)) * 64 +
              (128 + n % 64 - 128) = n := by omega
          have gneed : ¬ ((2 : Nat) = 1) := by omega
          simp only [if_neg gneed, gacc, utf8FinishOk]
          have gl2 : ¬ ((3 : Nat) = 2) := by omega
          simp only [if_neg gl2, if_pos rfl]
          have g4 : (decide (2048 ≤ n) && (decide (n < 55296) || decide (57343 < n))) = true := by
            simp only [Bool.and_eq_true, Bool.or_eq_true, decide_eq_true_eq]
            omega
          simp only [g4, if_true, hofn]
        · have h4 : n < 1114112 := by omega
          simp only [utf8Bytes, if_neg h1, if_neg h2, if_neg h3, List.map_cons, List.map_nil,
            List.cons_append, List.nil_append, utf8Run]
          have c2 : ¬ (240 + n / 262144 < 128) := by omega
          have c3 : ¬ (240 + n / 262144 < 192) := by omega
          have c4 : ¬ (240 + n / 262144 < 224) := by omega
          have c5 : ¬ (240 + n / 262144 < 240) := by omega
          have c6 : 240 + n / 262144 < 248 := by omega
          simp only [if_neg c2, if_neg c3, if_neg c4, if_neg c5, if_pos c6]
          have g1 : (decide (128 ≤ 128 + n / 4096 % 64) && decide (128 + n / 4096 % 64 < 192)) = true := by
            simp only [Bool.and_eq_true, decide_eq_true_eq]
            omega
          have g2 : (decide (128 ≤ 128 + n / 64 % 64) && decide (128 + n / 64 % 64 < 192)) = true := by
            simp only [Bool.and_eq_true, decide_eq_true_eq]
            omega
          have g3 : (decide (128 ≤ 128 + n % 64) && decide (128 + n % 64 < 192)) = true := by
            simp only [Bool.and_eq_true, decide_eq_true_eq]
            omega
          simp only [g1, g2, g3, if_true]
          have gneed3 : ¬ ((3 : Nat) = 1) := by omega
          have gneed2 : ¬ ((3 - 1 : Nat) = 1) := by omega
          simp only [if_neg gneed3]
          have gacc : (((240 + n / 262144 - 240) * 64 + (128 + n / 4096 % 64 - 128)) * 64 +
              (128 + n / 64 % 64 - 128)) * 64 + (128 + n % 64 - 128) = n := by omega
          simp only [gacc, utf8FinishOk]
          have gl2 : ¬ ((4 : Nat) = 2) := by omega
          have gl3 : ¬ ((4 : Nat) = 3) := by omega
          simp only [if_neg gl2, if_neg gl3]
          have g4 : (decide (65536 ≤ n) && decide (n < 1114112)) = true := by
            simp only [Bool.and_eq_true, decide_eq_true_eq]
            omega
          simp only [if_neg gneed2, g4, if_true, hofn]

theorem uriRoundTripList (l : List Char) :
    (percentTokens ((l.map encodeCharURI).flatten)).bind (utf8Run none) = some l := by
  induction l with
  | nil => simp [percentTokens, utf8Run]
  | cons c rest ih =>
    simp only [List.map_cons, List.flatten_cons]
    rw [percentTokens_encodeChar c]
    cases hpt : percentTokens ((rest.map encodeCharURI).flatten) with
    | none =>
      rw [hpt] at ih
      exact absurd ih (by simp)
    | some ts =>
      rw [hpt] at ih
      simp only [Option.some_bind] at ih
      simp only [hpt, Option.map_some', Option.some_bind]
      rw [utf8Run_encodeChar c ts, ih]
      rfl

theorem decode_encodeURIComponent (s : String) :
    decodeURIComponent (encodeURIComponent s) = some s := by
  show ((percentTokens (String.mk ((s.data.map encodeCharURI).flatten)).data).bind
      (utf8Run none)).map String.mk = some s
  rw [show (String.mk ((s.data.map encodeCharURI).flatten)).data
      = (s.data.map encodeCharURI).flatten from rfl]
  rw [uriRoundTripList s.data]
  rfl

/-! ### String and list helper lemmas -/

theorem strStartsWith_iff (s p : String) : strStartsWith s p = true ↔ p.data <+: s.data := by
  simp [strStartsWith, List.isPrefixOf_iff_prefix]

theorem strStartsWith_false_of_ne_head (s p : String) (c d : Char) (ts tp : List Char)
    (hs : s.data = c :: ts) (hp : p.data = d :: tp) (h : (d == c) = false) :
    strStartsWith s p = false := by
  simp only [strStartsWith, hs, hp, List.isPrefixOf, h, Bool.false_and]

theorem data_append (a b : String) : (a ++ b).data = a.data ++ b.data :=
  String.data_append a b

theorem takeWhile_append_all {α} (p : α → Bool) {xs : List α} (ys : List α)
    (h : ∀ x ∈ xs, p x = true) : (xs ++ ys).takeWhile p = xs ++ ys.takeWhile p := by
  induction xs with
  | nil => simp
  | cons a l ih =>
    simp only [List.cons_append, List.takeWhile_cons, h a (List.mem_cons_self a l), if_true]
    rw [ih (fun x hx => h x (List.mem_cons_of_mem a hx))]

theorem dropWhile_append_all {α} (p : α → Bool) {xs : List α} (ys : List α)
    (h : ∀ x ∈ xs, p x = true) : (xs ++ ys).dropWhile p = ys.dropWhile p := by
  induction xs with
  | nil => simp
  | cons a l ih =>
    simp only [List.cons_append, List.dropWhile_cons, h a (List.mem_cons_self a l), if_true]
    exact ih (fun x hx => h x (List.mem_cons_of_mem a hx))

theorem takeWhile_all {α} (p : α → Bool) {xs : List α}
    (h : ∀ x ∈ xs, p x = true) : xs.takeWhile p = xs := by
  have := takeWhile_append_all p ([] : List α) h
  simpa using this

theorem strStartsWith_append (p x : String) : strStartsWith (p ++ x) p = true := by
  rw [strStartsWith_iff, data_append]
  exact List.prefix_append _ _

theorem rewriteUrl_rewritten (v targetDomain : String)
    (h : (strStartsWith v "/browse" || strStartsWith v "/external") = true) :
    rewriteUrl v targetDomain = none := by
  have hhead : ∃ tv, v.data = '/' :: tv := by
    rcases (Bool.or_eq_true _ _).mp h with h1 | h1 <;>
      rcases (strStartsWith_iff _ _).mp h1 with ⟨t, ht⟩
    · exact ⟨'b' :: 'r' :: 'o' :: 'w' :: 's' :: 'e' :: t, by rw [← ht]; rfl⟩
    · exact ⟨'e' :: 'x' :: 't' :: 'e' :: 'r' :: 'n' :: 'a' :: 'l' :: t, by rw [← ht]; rfl⟩
  obtain ⟨tv, hv⟩ := hhead
  have hne0 : ¬ v = "" := by
    intro he
    rw [he] at hv
    cases hv
  have hd : strStartsWith v "data:" = false :=
    strStartsWith_false_of_ne_head v _ '/' 'd' tv _ hv rfl rfl
  have hj : strStartsWith v "javascript:" = false :=
    strStartsWith_false_of_ne_head v _ '/' 'j' tv _ hv rfl rfl
  have hm : strStartsWith v "mailto:" = false :=
    strStartsWith_false_of_ne_head v _ '/' 'm' tv _ hv rfl rfl
  have htel : strStartsWith v "tel:" = false :=
    strStartsWith_false_of_ne_head v _ '/' 't' tv _ hv rfl rfl
  have hhash : strStartsWith v "#" = false :=
    strStartsWith_false_of_ne_head v _ '/' '#' tv _ hv rfl rfl
  rw [rewriteUrl, if_neg hne0, if_neg (by simp [hd, hj, hm, htel, hhash]), if_pos h]

theorem strStartsWith_prefix_append (p q x : String) (hp : p.data <+: q.data) :
    strStartsWith (q ++ x) p = true := by
  rw [strStartsWith_iff, data_append]
  exact hp.trans (List.prefix_append _ _)

theorem strStartsWith_append3 (p A B C : String) :
    strStartsWith (p ++ A ++ B ++ C) p = true := by
  rw [strStartsWith_iff]
  simp only [data_append, List.append_assoc]
  exact List.prefix_append _ _

theorem rewriteUrl_shape (url targetDomain v : String)
    (h : rewriteUrl url targetDomain = some v) :
    (strStartsWith v "/browse" || strStartsWith v "/external") = true := by
  rw [rewriteUrl] at h
  repeat' split at h
  all_goals try cases h
  all_goals rw [Bool.or_eq_true]
  all_goals try exact Or.inl (strStartsWith_append3 _ _ _ _)
  all_goals exact Or.inr (strStartsWith_prefix_append _ _ _ (by decide))

theorem rewriteStep_idem (targetDomain url : String) :
    rewriteStep targetDomain (rewriteStep targetDomain url) = rewriteStep targetDomain url := by
  cases hr : rewriteUrl url targetDomain with
  | none => simp [rewriteStep, hr]
  | some v =>
    simp only [rewriteStep, hr, Option.getD_some]
    rw [rewriteUrl_rewritten v targetDomain (rewriteUrl_shape url targetDomain v hr)]
    rfl

theorem strContains_iff (s p : String) : strContains s p = true ↔ p.data <:+: s.data := by
  simp [strContains]

/-! ### Claim theorems

One theorem per claim of the specification review, each stating the
checked property over the embedded definitions. -/

/-- C1 (counterexample): the claim says every entry point (`/browse`,
`/external`, `/navigate`, `/relay`) rejects a loopback/private target
before any upstream fetch is attempted.  The `GET /external` handler
performs no hostname validation at all: for the percent-encoded loopback
URL `http://127.0.0.1/` it decodes the parameter and proceeds straight to
the upstream fetch of `http://127.0.0.1/` instead of rejecting the
request. -/
theorem c1_counterexample :
    externalGetDecision (encodeURIComponent "http://127.0.0.1/")
      = EntryDecision.fetch "http://127.0.0.1/" := by
  decide

/-- C1 (amended): the SSRF guard exists at `GET /navigate` and
`POST /relay` only: a target whose parsed hostname is `127.0.0.1`,
`10.0.0.1` or `192.168.1.1` is rejected there with status 403 before any
fetch, while `GET /external` fetches whatever its path parameter decodes
to, without any hostname check. -/
theorem c1_amended_guard (url h : String)
    (hpct : strContains url "%" = false)
    (hh : urlHostname url = some h)
    (hblocked : h = "127.0.0.1" ∨ h = "10.0.0.1" ∨ h = "192.168.1.1") :
    navigateGetDecision (some url) = .reject 403 "Cannot navigate to internal addresses" ∧
    relayPostDecision (some url) none = .reject 403 "Cannot relay to internal addresses" ∧
    (∀ enc u, decodeURIComponent enc = some u → externalGetDecision enc = .fetch u) := by

  have hne : ¬ url = "" := by
    intro he
    rw [he] at hh
    cases hh
  have hblk : isBlockedHostname (strToLower h) = true := by
    rcases hblocked with hb | hb | hb <;> subst hb <;> decide
  refine ⟨?_, ?_, fun enc u hdec => by rw [externalGetDecision, hdec]⟩
  · rw [navigateGetDecision, if_neg hne]
    simp only [hpct, Bool.false_eq_true, if_false, hh]
    rw [if_pos hblk]
  · rw [relayPostDecision]
    simp only [jsOrOpt]
    rw [if_neg hne]
    simp only [hh]
    rw [if_pos hblk]
    rw [if_neg hne]

/-- C1 (witness): the amended guard at the concrete blocked target
`http://10.0.0.1/x`. -/
theorem c1_amended_guard_witness :
    navigateGetDecision (some "http://10.0.0.1/x")
      = .reject 403 "Cannot navigate to internal addresses" ∧
    relayPostDecision (some "http://10.0.0.1/x") none
      = .reject 403 "Cannot relay to internal addresses" ∧
    (∀ enc u, decodeURIComponent enc = some u → externalGetDecision enc = .fetch u) :=
  c1_amended_guard "http://10.0.0.1/x" "10.0.0.1" (by decide) (by decide)
    (Or.inr (Or.inl rfl))

/-- C2 (counterexample): the claim says an upstream response with status
≥ 500 is returned to the caller as an ordinary `FetchResult` and only
network failures raise.  `fetchThroughProxy` configures axios with
`validateStatus: status < 500`, so a 500 response makes axios reject and
the function re-throws instead of returning a result. -/
theorem c2_counterexample :
    fetchThroughProxy (UpstreamOutcome.response 500 [] "")
      = Except.error "Request failed with status code 500" := by
  decide

/-- C2 (amended): `fetchThroughProxy` passes through every response with
status < 500 (including 3xx and 4xx) as an ordinary `FetchResult`, and
raises both on network failure and on any status ≥ 500 (which is what
lets `fetchWithRetry` rotate on upstream 5xx errors). -/
theorem c2_amended_status_handling (st : Nat) (hdrs : List (String × String)) (dat : String) :
    (st < 500 →
      fetchThroughProxy (.response st hdrs dat)
        = .ok { success := true, status := st, headers := hdrs, data := dat,
                contentType := jsOrStr (assocLookup hdrs "content-type") "text/html" }) ∧
    (500 ≤ st →
      fetchThroughProxy (.response st hdrs dat)
        = .error ("Request failed with status code " ++ toString st)) ∧
    (∀ m, fetchThroughProxy (.netError m) = .error m) := by

  refine ⟨fun hlt => ?_, fun hge => ?_, fun m => rfl⟩
  · rw [fetchThroughProxy, if_pos (by simp [validateStatus]; omega)]
  · rw [fetchThroughProxy, if_neg (by simp [validateStatus]; omega)]

/-- C2 (witness): the amended status handling at a 404 response (passed
through), a 500 response (raised) and a network error (raised). -/
theorem c2_amended_status_handling_witness :
    fetchThroughProxy (.response 404 [("content-type", "text/plain")] "nope")
      = .ok { success := true, status := 404, headers := [("content-type", "text/plain")],
              data := "nope", contentType := "text/plain" } ∧
    fetchThroughProxy (.response 503 [] "")
      = .error ("Request failed with status code " ++ toString 503) ∧
    fetchThroughProxy (.netError "ETIMEDOUT") = .error "ETIMEDOUT" :=
  ⟨by
    have h := (c2_amended_status_handling 404 [("content-type", "text/plain")] "nope").1
      (by omega)
    rw [h]
    rfl,
   (c2_amended_status_handling 503 [] "").2.1 (by omega),
   (c2_amended_status_handling 0 [] "").2.2 "ETIMEDOUT"⟩

/-- C3: when the per-attempt fetch fails exactly twice and then succeeds,
`fetchWithRetry` with `maxRetries = 3` returns the successful result, and
the session record it hands back carries the credential id generated at
the second rotation — different from the pre-call id whenever the fresh
id differs from it (which is what `generateProxySessionId`'s fresh random
ids provide).  The rotation mutates the caller's session record in
place. -/
theorem c3_retry_rotation (upstream : Nat → UpstreamOutcome) (newIds : Nat → String)
    (s : Session) (e1 e2 : String) (r : FetchResult)
    (h1 : fetchThroughProxy (upstream 1) = .error e1)
    (h2 : fetchThroughProxy (upstream 2) = .error e2)
    (h3 : fetchThroughProxy (upstream 3) = .ok r)
    (hfresh : newIds 2 ≠ s.proxySessionId) :
    ∃ s2, fetchWithRetry upstream newIds s 3 = .ok (r, s2) ∧
      s2.proxySessionId ≠ s.proxySessionId := by

  refine ⟨{ proxySessionId := newIds 2 }, ?_, hfresh⟩
  rw [fetchWithRetry]
  simp [fetchWithRetryGo, h1, h2, h3]

/-- C3 (witness): the concrete run with two network failures and a third
successful attempt, starting from credential id `AA`. -/
theorem c3_retry_rotation_witness :
    ∃ s2, fetchWithRetry upstreamC3 newIdsC3 { proxySessionId := "AA" } 3
        = .ok ({ success := true, status := 200,
                 headers := [("content-type", "text/html")], data := "ok",
                 contentType := "text/html" }, s2) ∧
      s2.proxySessionId ≠ "AA" :=
  c3_retry_rotation upstreamC3 newIdsC3 { proxySessionId := "AA" }
    "ECONNRESET" "ECONNRESET" _ (by decide) (by decide) (by decide) (by decide)

/-- C4 (counterexample): the claim says the 3-hop chain (302 → 302 → 200
redirect notice with one qualifying anchor → 200 final page) is resolved
with exactly 3 upstream fetches.  The resolver fetches the entry URL, the
hop URL, the notice URL *and* the extracted destination: 4 fetches
(the hop cap is never hit, so the result is an `.ok` and its fetch count
is 4, not 3). -/
theorem c4_counterexample :
    Except.map ResolveResult.fetchCount
        (followRedirectsServerSide envC4 (finalFetchOf envC4) urlC4A 20)
      ≠ Except.ok 3 := by
  decide

/-- C4 (amended): on the 3-hop chain the resolver succeeds and returns
the final page's response with `finalUrl` equal to the notice's
qualifying anchor href, having issued exactly 4 upstream fetches (one
per response in the chain, including the final page). -/
theorem c4_amended_redirect_chain :
    followRedirectsServerSide envC4 (finalFetchOf envC4) urlC4A 20
      = .ok { response := envC4 urlC4D, finalUrl := urlC4D, fetchCount := 4 } ∧
    (envC4 urlC4D).body = finalPage := by
  decide

/-- Appending a character keeps a string nonempty. -/
lemma append_x_ne_empty (u : String) : u ++ "x" ≠ "" := by
  intro he
  have h2 := congrArg String.data he
  rw [data_append] at h2
  simp at h2

/-- Every response of the unbounded chain is classified as an HTTP
redirect to the current URL extended by one character. -/
lemma hopTarget_envC5 (u : String) :
    hopTarget (envC5 u) = some (.resolved (u ++ "x")) := by
  simp [hopTarget, envC5, append_x_ne_empty u]

/-- One loop iteration over the unbounded chain: follow the redirect and
continue with one unit of fuel less. -/
lemma followRedirectsGo_envC5_step (fin : String → Except String NavResponse)
    (u : String) (fetched fuel : Nat) :
    followRedirectsGo envC5 fin u fetched (fuel + 1)
      = followRedirectsGo envC5 fin (u ++ "x") (fetched + 1) fuel := by
  simp only [followRedirectsGo, hopTarget_envC5, resolveUrlAgainst]

/-- Fuel exhaustion delegates to the hop-cap final fetch. -/
lemma followRedirectsGo_envC5_zero (fin : String → Except String NavResponse)
    (u : String) (fetched : Nat) :
    followRedirectsGo envC5 fin u fetched 0
      = Except.map (fun r => { response := r, finalUrl := u, fetchCount := fetched + 1 })
          (fin u) := by
  simp only [followRedirectsGo]
  cases fin u <;> rfl

/-- C5 (counterexample): the claim says that on 21 consecutive 302s the
resolver terminates after 20 hops and returns the 20th response rather
than raising an error.  But the hop-cap fetch (navigateRoutes.js line
309) omits `followRedirects: false`, so axios auto-follows the — still
unbounded — 302 chain, hits its own `maxRedirects: 20` cap, every retry
attempt fails the same way, and the resolver raises `fetchWithRetry`'s
exhaustion error: it never returns the 302 reached after the 20th
hop. -/
theorem c5_counterexample :
    followRedirectsServerSide envC5 (finalFetchOf envC5) (chainUrl 0) 20
      = .error "All 3 proxy attempts failed: Maximum number of redirects exceeded" ∧
    followRedirectsServerSide envC5 (finalFetchOf envC5) (chainUrl 0) 20
      ≠ .ok { response := envC5 (chainUrl 20), finalUrl := chainUrl 20, fetchCount := 21 } := by
  decide

/-- C5 (amended): on the unbounded 302 chain the loop does follow
exactly 20 hops, reaching `chainUrl 20`, and then delegates entirely to
the hop-cap final fetch of that URL — whatever that fetch does (first
conjunct).  That final fetch, issued without `followRedirects: false`,
makes axios follow 20 further hops of the still-endless chain and then
reject with its redirect cap (second conjunct); all three retry attempts
of `fetchWithRetry` fail identically, so the resolver raises the
retry-exhaustion error instead of returning the 302 response of
`chainUrl 20` (third conjunct). -/
theorem c5_amended_hop_cap :
    (∀ fin : String → Except String NavResponse,
      followRedirectsServerSide envC5 fin (chainUrl 0) 20
        = Except.map (fun r => { response := r, finalUrl := chainUrl 20, fetchCount := 21 })
            (fin (chainUrl 20))) ∧
    axiosFollowRedirects envC5 20 (chainUrl 20)
      = .error "Maximum number of redirects exceeded" ∧
    followRedirectsServerSide envC5 (finalFetchOf envC5) (chainUrl 0) 20
      = .error "All 3 proxy attempts failed: Maximum number of redirects exceeded" := by
  refine ⟨fun fin => ?_, by decide, by decide⟩
  rw [followRedirectsServerSide]
  iterate 20 rw [followRedirectsGo_envC5_step]
  rw [followRedirectsGo_envC5_zero]
  rfl

/-- C5 (witness for the amended statement): the first conjunct applied
to the faithful final fetch `finalFetchOf envC5`. -/
theorem c5_amended_hop_cap_witness :
    followRedirectsServerSide envC5 (finalFetchOf envC5) (chainUrl 0) 20
      = Except.map (fun r => { response := r, finalUrl := chainUrl 20, fetchCount := 21 })
          (finalFetchOf envC5 (chainUrl 20)) :=
  c5_amended_hop_cap.1 (finalFetchOf envC5)

/-- C6: for an absolute URL whose host differs from the target origin's
host, `rewriteUrl` produces `/external/` followed by the
percent-encoded URL, and `decodeURIComponent` (what the `/external`
handler applies to the path segment) recovers the original URL exactly. -/
theorem c6_external_roundtrip (url targetDomain h th : String)
    (habs : (strStartsWith url "http://" || strStartsWith url "https://") = true)
    (hh : urlHostname url = some h)
    (hth : urlHostname targetDomain = some th)
    (hne : h ≠ th) :
    rewriteUrl url targetDomain = some ("/external/" ++ encodeURIComponent url) ∧
    decodeURIComponent (encodeURIComponent url) = some url := by
  refine ⟨?_, decode_encodeURIComponent url⟩

  have hhead : ∃ t, url.data = 'h' :: t := by
    rcases (Bool.or_eq_true _ _).mp habs with h1 | h1
    · rcases (strStartsWith_iff _ _).mp h1 with ⟨t, ht⟩
      exact ⟨'t' :: 't' :: 'p' :: ':' :: '/' :: '/' :: t, by rw [← ht]; rfl⟩
    · rcases (strStartsWith_iff _ _).mp h1 with ⟨t, ht⟩
      exact ⟨'t' :: 't' :: 'p' :: 's' :: ':' :: '/' :: '/' :: t, by rw [← ht]; rfl⟩
  obtain ⟨t, hturl⟩ := hhead
  have hne0 : ¬ url = "" := by
    intro he
    rw [he] at hturl
    cases hturl
  have hd : strStartsWith url "data:" = false :=
    strStartsWith_false_of_ne_head url _ 'h' 'd' t _ hturl rfl rfl
  have hj : strStartsWith url "javascript:" = false :=
    strStartsWith_false_of_ne_head url _ 'h' 'j' t _ hturl rfl rfl
  have hm : strStartsWith url "mailto:" = false :=
    strStartsWith_false_of_ne_head url _ 'h' 'm' t _ hturl rfl rfl
  have htel : strStartsWith url "tel:" = false :=
    strStartsWith_false_of_ne_head url _ 'h' 't' t _ hturl rfl rfl
  have hhash : strStartsWith url "#" = false :=
    strStartsWith_false_of_ne_head url _ 'h' '#' t _ hturl rfl rfl
  have hbrowse : strStartsWith url "/browse" = false :=
    strStartsWith_false_of_ne_head url _ 'h' '/' t _ hturl rfl rfl
  have hext : strStartsWith url "/external" = false :=
    strStartsWith_false_of_ne_head url _ 'h' '/' t _ hturl rfl rfl
  have hss : strStartsWith url "//" = false :=
    strStartsWith_false_of_ne_head url _ 'h' '/' t _ hturl rfl rfl
  have hs : strStartsWith url "/" = false :=
    strStartsWith_false_of_ne_head url _ 'h' '/' t _ hturl rfl rfl
  have hres : resolveReference url targetDomain = url := by
    rw [resolveReference, if_neg (by simp [hss]), if_neg (by simp [hs]), if_pos habs]
  rw [rewriteUrl]
  rw [if_neg hne0]
  rw [if_neg (by simp [hd, hj, hm, htel, hhash])]
  rw [if_neg (by simp [hbrowse, hext])]
  rw [hres, hh, hth]
  simp [hne]

/-- C6 (witness): the round trip at a concrete CDN URL rewritten against
a different target origin. -/
theorem c6_external_roundtrip_witness :
    rewriteUrl "https://cdn.example.com/lib.js?v=1" "https://site.example"
      = some ("/external/" ++ encodeURIComponent "https://cdn.example.com/lib.js?v=1") ∧
    decodeURIComponent (encodeURIComponent "https://cdn.example.com/lib.js?v=1")
      = some "https://cdn.example.com/lib.js?v=1" :=
  c6_external_roundtrip "https://cdn.example.com/lib.js?v=1" "https://site.example"
    "cdn.example.com" "site.example" (by decide) (by decide) (by decide) (by decide)

/-- C7: for an absolute URL whose host equals the target origin's host,
`rewriteUrl` produces `/browse` followed by the URL's path, query and
fragment; and the attribute-level rewrite (`rewriteStep`, which keeps
the original value when `rewriteUrl` declines) is idempotent, because
already-rewritten `/browse`/`/external` references are skipped. -/
theorem c7_browse_idempotent :
    (∀ scheme host path query frag targetDomain : String,
      (scheme = "http://" ∨ scheme = "https://") →
      host ≠ "" →
      (∀ c ∈ host.data, isAuthorityEnd c = false ∧ (c == ':') = false ∧ (c == '@') = false) →
      (∃ pt, path.data = '/' :: pt) →
      (∀ c ∈ path.data, (c == '?') = false ∧ (c == '#') = false) →
      (query.data = [] ∨ (∃ q, query.data = '?' :: q ∧ q ≠ [] ∧ ∀ c ∈ q, (c == '#') = false)) →
      (frag.data = [] ∨ (∃ f, frag.data = '#' :: f ∧ f ≠ [])) →
      urlHostname targetDomain = some (strToLower host) →
      rewriteUrl (scheme ++ (host ++ (path ++ (query ++ frag)))) targetDomain
        = some ("/browse" ++ (path ++ (query ++ frag)))) ∧
    (∀ targetDomain url, rewriteStep targetDomain (rewriteStep targetDomain url)
        = rewriteStep targetDomain url) := by
  refine ⟨?_, rewriteStep_idem⟩
  intro scheme host path query frag targetDomain hscheme hhostne hhost hpath hpathc hquery hfrag htarget

  set url := scheme ++ (host ++ (path ++ (query ++ frag))) with hurl
  set R := host.data ++ (path.data ++ (query.data ++ frag.data)) with hR
  have hud : url.data = scheme.data ++ R := by
    simp [hurl, hR, data_append]
  -- scheme facts
  have hS : (strStartsWith url "http://" || strStartsWith url "https://") = true := by
    rcases hscheme with hs | hs <;> subst hs
    · have : strStartsWith url "http://" = true := by
        rw [strStartsWith_iff, hud]
        exact ⟨R, rfl⟩
      simp [this]
    · have : strStartsWith url "https://" = true := by
        rw [strStartsWith_iff, hud]
        exact ⟨R, rfl⟩
      simp [this]
  have hrest : schemeRest url = some R := by
    rcases hscheme with hs | hs <;> subst hs
    · have h1 : strStartsWith url "http://" = true := by
        rw [strStartsWith_iff, hud]
        exact ⟨R, rfl⟩
      rw [schemeRest, if_pos h1, hud]
      rfl
    · have h1 : strStartsWith url "http://" = false := by
        rw [strStartsWith, hud]
        rfl
      have h2 : strStartsWith url "https://" = true := by
        rw [strStartsWith_iff, hud]
        exact ⟨R, rfl⟩
      rw [schemeRest, if_neg (by simp [h1]), if_pos h2, hud]
      rfl
  obtain ⟨pt, hpt⟩ := hpath
  have hhostd : host.data ≠ [] := fun hh => hhostne (String.ext (by rw [hh]))
  -- authority = host
  have hauth : authorityOf R = host.data := by
    rw [hR, authorityOf,
      takeWhile_append_all _ _ (fun c hc => by simp [(hhost c hc).1])]
    rw [hpt]
    simp [isAuthorityEnd]
  have hcred : afterCredentials host.data = host.data := by
    rw [afterCredentials,
      takeWhile_all _ (fun c hc => by simp [(hhost c (List.mem_reverse.mp hc)).2.2]),
      List.reverse_reverse]
  have hhostTake : host.data.takeWhile (fun c => !(c == ':')) = host.data :=
    takeWhile_all _ (fun c hc => by simp [(hhost c hc).2.1])
  have hhostname : urlHostname url = some (strToLower host) := by
    rw [urlHostname, hrest]
    simp only [hauth, hcred, hhostTake]
    rw [if_neg (by simp [List.isEmpty_iff, hhostd])]
    rfl
  -- after the authority: path ++ query ++ frag
  have hafter : afterAuthority R = path.data ++ (query.data ++ frag.data) := by
    rw [hR, afterAuthority,
      dropWhile_append_all _ _ (fun c hc => by simp [(hhost c hc).1])]
    rw [hpt]
    simp [List.dropWhile_cons, isAuthorityEnd]
  have hpathTake : (path.data ++ (query.data ++ frag.data)).takeWhile
      (fun c => !(c == '?') && !(c == '#')) = path.data := by
    rw [takeWhile_append_all _ _ (fun c hc => by simp [(hpathc c hc).1, (hpathc c hc).2])]
    rcases hquery with hq | ⟨q, hq, hqne, hqc⟩
    · rcases hfrag with hf | ⟨f, hf, hfne⟩
      · simp [hq, hf]
      · simp [hq, hf, List.takeWhile_cons]
    · simp [hq, List.takeWhile_cons]
  have hpathname : urlPathname url = path := by
    rw [urlPathname, hrest]
    simp only [hafter, hpathTake]
    rw [if_neg (by simp [List.isEmpty_iff, hpt])]
  have hsearch : urlSearch url = query := by
    rw [urlSearch, hrest]
    simp only [hafter]
    rw [dropWhile_append_all _ _ (fun c hc => by simp [(hpathc c hc).1, (hpathc c hc).2])]
    rcases hquery with hq | ⟨q, hq, hqne, hqc⟩
    · rcases hfrag with hf | ⟨f, hf, hfne⟩
      · rw [hq, hf]
        simp only [List.nil_append, List.dropWhile_nil]
        rw [if_neg (by simp)]
        exact String.ext (by rw [hq])
      · rw [hq, hf]
        simp only [List.nil_append, List.dropWhile_cons]
        norm_num
        exact String.ext (by rw [hq])
    · rw [hq]
      simp only [List.cons_append, List.dropWhile_cons]
      norm_num
      have htk : List.takeWhile (fun c => !(c == '#')) ('?' :: (q ++ frag.data))
          = '?' :: q := by
        rw [List.takeWhile_cons, if_pos (by simp)]
        rw [takeWhile_append_all _ _ (fun c hc => by simp [hqc c hc])]
        rcases hfrag with hf | ⟨f, hf, hfne⟩
        · simp [hf]
        · simp [hf, List.takeWhile_cons]
      rw [htk]
      rw [if_neg (by simp [hqne])]
      exact String.ext (by rw [hq])
  have hnohash : ∀ c ∈ path.data ++ query.data, (!(c == '#')) = true := by
    intro c hc
    rcases List.mem_append.mp hc with hcp | hcq
    · simp [(hpathc c hcp).2]
    · rcases hquery with hq | ⟨q, hq, hqne, hqc⟩
      · rw [hq] at hcq
        cases hcq
      · rw [hq] at hcq
        rcases List.mem_cons.mp hcq with hcq | hcq
        · subst hcq
          decide
        · simp [hqc c hcq]
  have hhash2 : urlHash url = frag := by
    rw [urlHash, hrest]
    simp only [hafter]
    rw [show path.data ++ (query.data ++ frag.data)
        = (path.data ++ query.data) ++ frag.data from (List.append_assoc _ _ _).symm]
    rw [dropWhile_append_all _ _ hnohash]
    rcases hfrag with hf | ⟨f, hf, hfne⟩
    · rw [hf]
      simp only [List.dropWhile_nil]
      rw [if_pos (by simp)]
      exact String.ext (by rw [hf])
    · rw [hf]
      simp only [List.dropWhile_cons]
      rw [if_neg (by simp; exact hfne)]
      exact String.ext (by rw [hf]; simp)
  -- now run rewriteUrl
  have hhead : ∃ t2, url.data = 'h' :: t2 := by
    rcases hscheme with hs | hs <;> rw [hud, hs] <;> exact ⟨_, rfl⟩
  obtain ⟨t2, hturl⟩ := hhead
  have hne0 : ¬ url = "" := by
    intro he
    rw [he] at hturl
    cases hturl
  have hd : strStartsWith url "data:" = false :=
    strStartsWith_false_of_ne_head url _ 'h' 'd' t2 _ hturl rfl rfl
  have hj : strStartsWith url "javascript:" = false :=
    strStartsWith_false_of_ne_head url _ 'h' 'j' t2 _ hturl rfl rfl
  have hm : strStartsWith url "mailto:" = false :=
    strStartsWith_false_of_ne_head url _ 'h' 'm' t2 _ hturl rfl rfl
  have htel : strStartsWith url "tel:" = false :=
    strStartsWith_false_of_ne_head url _ 'h' 't' t2 _ hturl rfl rfl
  have hhash0 : strStartsWith url "#" = false :=
    strStartsWith_false_of_ne_head url _ 'h' '#' t2 _ hturl rfl rfl
  have hbrowse : strStartsWith url "/browse" = false :=
    strStartsWith_false_of_ne_head url _ 'h' '/' t2 _ hturl rfl rfl
  have hext : strStartsWith url "/external" = false :=
    strStartsWith_false_of_ne_head url _ 'h' '/' t2 _ hturl rfl rfl
  have hss2 : strStartsWith url "//" = false :=
    strStartsWith_false_of_ne_head url _ 'h' '/' t2 _ hturl rfl rfl
  have hs2 : strStartsWith url "/" = false :=
    strStartsWith_false_of_ne_head url _ 'h' '/' t2 _ hturl rfl rfl
  have hres : resolveReference url targetDomain = url := by
    rw [resolveReference, if_neg (by simp [hss2]), if_neg (by simp [hs2]), if_pos hS]
  rw [rewriteUrl]
  rw [if_neg hne0]
  rw [if_neg (by simp [hd, hj, hm, htel, hhash0])]
  rw [if_neg (by simp [hbrowse, hext])]
  rw [hres, hhostname, htarget]
  simp [hpathname, hsearch, hhash2, String.ext_iff, data_append, List.append_assoc]

/-- C7 (witness): the `/browse` production at a concrete same-host URL
with path, query and fragment, and idempotence at a concrete foreign
URL. -/
theorem c7_browse_idempotent_witness :
    rewriteUrl ("https://" ++ ("site.example" ++ ("/a/b" ++ ("?x=1" ++ "#top"))))
        "https://site.example"
      = some ("/browse" ++ ("/a/b" ++ ("?x=1" ++ "#top"))) ∧
    rewriteStep "https://site.example"
        (rewriteStep "https://site.example" "https://cdn.example.com/x.png")
      = rewriteStep "https://site.example" "https://cdn.example.com/x.png" :=
  ⟨c7_browse_idempotent.1 "https://" "site.example" "/a/b" "?x=1" "#top" "https://site.example"
      (Or.inr rfl) (by decide) (by decide) ⟨"a/b".data, rfl⟩ (by decide)
      (Or.inr ⟨"x=1".data, rfl, by decide, by decide⟩)
      (Or.inr ⟨"top".data, rfl, by decide⟩) (by decide),
   c7_browse_idempotent.2 "https://site.example" "https://cdn.example.com/x.png"⟩

/-- C8: references beginning with `data:`, `javascript:`, `mailto:`,
`tel:` or `#` are never rewritten — `rewriteUrl` returns `null` for
them, so the attribute keeps its original value. -/
theorem c8_skip_schemes (url targetDomain : String)
    (h : (strStartsWith url "data:" || strStartsWith url "javascript:" ||
          strStartsWith url "mailto:" || strStartsWith url "tel:" ||
          strStartsWith url "#") = true) :
    rewriteUrl url targetDomain = none := by

  have hne : ¬ url = "" := by
    intro he
    subst he
    revert h
    decide
  rw [rewriteUrl]
  rw [if_neg hne, if_pos h]

/-- C8 (witness): the skip rule at each of the five reference forms. -/
theorem c8_skip_schemes_witness :
    rewriteUrl "data:image/png;base64,AAAA" "https://site.example" = none ∧
    rewriteUrl "javascript:void(0)" "https://site.example" = none ∧
    rewriteUrl "mailto:a@b.example" "https://site.example" = none ∧
    rewriteUrl "tel:+15551234" "https://site.example" = none ∧
    rewriteUrl "#top" "https://site.example" = none :=
  ⟨c8_skip_schemes "data:image/png;base64,AAAA" "https://site.example" (by decide),
   c8_skip_schemes "javascript:void(0)" "https://site.example" (by decide),
   c8_skip_schemes "mailto:a@b.example" "https://site.example" (by decide),
   c8_skip_schemes "tel:+15551234" "https://site.example" (by decide),
   c8_skip_schemes "#top" "https://site.example" (by decide)⟩

/-- C9: a `/browse` request for a path ending in `.css` whose upstream
response declares `text/html` and whose body begins with
`<!DOCTYPE html>` takes the error-page branch: the handler sends an
empty body typed `text/css; charset=utf-8` instead of propagating the
HTML error page. -/
theorem c9_css_error_page (targetPath acceptHeader : String) (resp : FetchResult)
    (h1 : strEndsWith (strToLower (strBefore targetPath '?')) ".css" = true)
    (h2 : extnameLower (strBefore targetPath '?') = ".css")
    (h3 : strContains resp.contentType "text/html" = true)
    (h4 : strStartsWith resp.data "<!DOCTYPE html>" = true) :
    browseGetSend targetPath acceptHeader resp
      = .emptyTyped "text/css; charset=utf-8" := by

  have hmime : getCorrectMimeType targetPath resp.contentType acceptHeader
      = "text/css; charset=utf-8" := by
    simp only [getCorrectMimeType, h2]
    rw [if_pos (by decide)]
    rfl
  have herr : isHtmlErrorPage resp.data resp.contentType = true := by
    rw [isHtmlErrorPage, if_neg (by simp [h3])]
    obtain ⟨t, ht⟩ := (strStartsWith_iff _ _).mp h4
    have htake : (resp.data.data.take 500) = "<!DOCTYPE html>".data ++ t.take 485 := by
      rw [← ht, List.take_append_eq_append_take,
        List.take_of_length_le (by decide), show ("<!DOCTYPE html>".data).length = 15 from rfl]
    have hcont : strContains (strToLower (strTake resp.data 500)) "<!doctype" = true := by
      rw [strContains_iff]
      show ("<!doctype".data) <:+: ((resp.data.data.take 500).map Char.toLower)
      rw [htake, List.map_append,
        show ("<!DOCTYPE html>".data).map Char.toLower = "<!doctype html>".data from by decide]
      exact List.IsInfix.trans (by decide) ((List.prefix_append _ _).isInfix)
    simp [hcont]
  rw [browseGetSend]
  rw [if_pos ?cond]
  case cond =>
    simp only [Bool.and_eq_true]
    refine ⟨?_, herr⟩
    simp only [Bool.or_eq_true, List.any_eq_true]
    exact Or.inl (Or.inl ⟨".css", by simp, h1⟩)
  rw [hmime]

/-- C9 (witness): the error-page branch at a concrete stylesheet path
and a concrete upstream 404 page. -/
theorem c9_css_error_page_witness :
    browseGetSend "/wp-content/themes/site/style.css" ""
      { success := true, status := 200, headers := [],
        data := "<!DOCTYPE html><html><body>404 Not Found</body></html>",
        contentType := "text/html" }
      = .emptyTyped "text/css; charset=utf-8" :=
  c9_css_error_page "/wp-content/themes/site/style.css" ""
    { success := true, status := 200, headers := [],
      data := "<!DOCTYPE html><html><body>404 Not Found</body></html>",
      contentType := "text/html" }
    (by decide) (by decide) (by decide) (by decide)

/-- C10 (counterexample): the claim says absorbing `a=1` then `b=2`
yields the same Cookie header *string* as absorbing them in the reverse
order.  The session's cookie object keeps first-insertion order and
`buildCookieHeader` serializes in that order, so the two orders produce
`"a=1; b=2"` and `"b=2; a=1"` — different strings. -/
theorem c10_counterexample :
    buildCookieHeader (storeCookiesFromResponse ["b=2"] (storeCookiesFromResponse ["a=1"] []))
      ≠ buildCookieHeader (storeCookiesFromResponse ["a=1"] (storeCookiesFromResponse ["b=2"] [])) := by
  decide

/-- C10 (amended): absorption of cookies with distinct names is
commutative up to serialization order — the resulting stores give every
name the same value under lookup, though the serialized header lists
cookies in first-insertion order; and absorbing the same name twice
keeps the last-absorbed value. -/
theorem c10_amended_cookie_merge :
    (∀ c1 c2 m k n1 v1 n2 v2, parseCookie c1 = some (n1, v1) → parseCookie c2 = some (n2, v2) →
      n1 ≠ n2 →
      assocLookup (storeCookiesFromResponse [c2] (storeCookiesFromResponse [c1] m)) k
        = assocLookup (storeCookiesFromResponse [c1] (storeCookiesFromResponse [c2] m)) k) ∧
    (∀ c1 c2 m n v1 v2, parseCookie c1 = some (n, v1) → parseCookie c2 = some (n, v2) →
      assocLookup (storeCookiesFromResponse [c1, c2] m) n = some v2) := by

  constructor
  · intro c1 c2 m k n1 v1 n2 v2 h1 h2 hne
    simp only [storeCookiesFromResponse, List.foldl_cons, List.foldl_nil, h1, h2]
    by_cases hk1 : k = n1
    · subst hk1
      rw [assocLookup_assocSet_ne _ _ _ _ (Ne.symm hne), assocLookup_assocSet_self,
        assocLookup_assocSet_self]
    · by_cases hk2 : k = n2
      · subst hk2
        rw [assocLookup_assocSet_self, assocLookup_assocSet_ne _ _ _ _ hne,
          assocLookup_assocSet_self]
      · rw [assocLookup_assocSet_ne _ _ _ _ (fun he => hk2 he.symm),
          assocLookup_assocSet_ne _ _ _ _ (fun he => hk1 he.symm),
          assocLookup_assocSet_ne _ _ _ _ (fun he => hk1 he.symm),
          assocLookup_assocSet_ne _ _ _ _ (fun he => hk2 he.symm)]
  · intro c1 c2 m n v1 v2 h1 h2
    simp only [storeCookiesFromResponse, List.foldl_cons, List.foldl_nil, h1, h2]
    exact assocLookup_assocSet_self _ _ _

/-- C10 (witness): lookup-commutativity for `a=1`/`b=2` and
last-write-wins for `a=1` then `a=2`. -/
theorem c10_amended_cookie_merge_witness :
    assocLookup (storeCookiesFromResponse ["b=2"] (storeCookiesFromResponse ["a=1"] [])) "a"
      = assocLookup (storeCookiesFromResponse ["a=1"] (storeCookiesFromResponse ["b=2"] [])) "a" ∧
    assocLookup (storeCookiesFromResponse ["a=1", "a=2"] []) "a" = some "2" :=
  ⟨c10_amended_cookie_merge.1 "a=1" "b=2" [] "a" "a" "1" "b" "2" (by decide) (by decide)
      (by decide),
   c10_amended_cookie_merge.2 "a=1" "a=2" [] "a" "1" "2" (by decide) (by decide)⟩
